import Mathlib

/-!
Verification of the sqlextract extraction core against its specification.

The Go source is shallowly embedded: each Go method becomes a pure Lean
function, with the receiver state and the wall clock passed explicitly.
Time is modelled as a natural number; the Go call t.After(now) becomes
now < t.  Go maps become association lists manipulated by lookupA, setA
and delA, so that both in-memory manager implementations operate on the
same representation and can be compared.  Fallible Go methods returning
(value, error) become Except String values.
-/

/-- Association list lookup, modelling a read from a Go map. -/
def lookupA {α : Type} (m : List (String × α)) (k : String) : Option α :=
  (m.find? (fun p => p.1 == k)).map (·.2)

/-- Association list update, modelling an assignment into a Go map. -/
def setA {α : Type} (m : List (String × α)) (k : String) (v : α) : List (String × α) :=
  (k, v) :: m.filter (fun p => p.1 != k)

/-- Association list removal, modelling the Go builtin delete on a map. -/
def delA {α : Type} (m : List (String × α)) (k : String) : List (String × α) :=
  m.filter (fun p => p.1 != k)

/-- The State record of internal/state/state.go.  LastValues holds the
pagination key of the last written row (nil in Go becomes none); key
values are modelled as integers.  Timestamps are naturals. -/
structure St where
  jobID : String
  table : String
  lastOffset : Int
  lastValues : Option (List Int)
  lastUpdated : Nat
  totalRows : Int
  processedRows : Int
  status : String
  errorMsg : String
deriving DecidableEq

/-- Shared representation of the two in-memory managers: the states map
and the locks map of MemoryManager and MemoryStateManager in the source
have identical shapes. -/
structure Mgr where
  states : List (String × St)
  locks : List (String × Nat)
deriving DecidableEq

/-- True when the locks map holds an entry for the key whose expiry lies
strictly after the given instant; this is the Go test
lockTime.After(now) on an existing entry. -/
def liveLock (locks : List (String × Nat)) (k : String) (now : Nat) : Bool :=
  match lookupA locks k with
  | some t => decide (now < t)
  | none => false

namespace MemoryManager

/-- MemoryManager.GetState of internal/state/state.go: error when the
table has no state, otherwise the stored record. -/
def GetState (m : Mgr) (table : String) : Except String St :=
  match lookupA m.states table with
  | some st => .ok st
  | none => .error ("state not found for table: " ++ table)

/-- MemoryManager.UpdateState: error when the table has no state, error
when a live lock exists, otherwise set ProcessedRows and LastUpdated. -/
def UpdateState (m : Mgr) (table : String) (processedRows : Int) (now : Nat) :
    Except String Mgr :=
  match lookupA m.states table with
  | none => .error ("state not found for table: " ++ table)
  | some st =>
    if liveLock m.locks table now then
      .error ("state is locked for table: " ++ table)
    else
      let st2 := { st with processedRows := processedRows, lastUpdated := now }
      .ok { m with states := setA m.states table st2 }

/-- MemoryManager.CreateState: error when a state for the same table is
already present, otherwise store the record under its table name. -/
def CreateState (m : Mgr) (st : St) : Except String Mgr :=
  if (lookupA m.states st.table).isSome then
    .error ("state already exists for table: " ++ st.table)
  else
    .ok { m with states := setA m.states st.table st }

/-- MemoryManager.DeleteState: error when absent, otherwise remove both
the state entry and any lock entry. -/
def DeleteState (m : Mgr) (table : String) : Except String Mgr :=
  match lookupA m.states table with
  | none => .error ("state not found for table: " ++ table)
  | some _ => .ok { states := delA m.states table, locks := delA m.locks table }

/-- MemoryManager.LockState of internal/state/state.go lines 117 to 132:
error when the table has no state; denial when a live lock exists;
otherwise record expiry now plus duration and grant. -/
def LockState (m : Mgr) (table : String) (now dur : Nat) :
    Except String (Bool × Mgr) :=
  if (lookupA m.states table).isNone then
    .error ("state not found for table: " ++ table)
  else if liveLock m.locks table now then
    .ok (false, m)
  else
    .ok (true, { m with locks := setA m.locks table (now + dur) })

/-- MemoryManager.UnlockState of internal/state/state.go lines 134 to
144: error when no lock entry exists, otherwise remove it. -/
def UnlockState (m : Mgr) (table : String) : Except String Mgr :=
  if (lookupA m.locks table).isNone then
    .error ("no lock found for table: " ++ table)
  else
    .ok { m with locks := delA m.locks table }

end MemoryManager

namespace MemoryStateManager

/-- MemoryStateManager.GetState of internal/state/memory_state_manager.go:
never errors, returns the record or nil. -/
def GetState (m : Mgr) (table : String) : Except String (Option St) :=
  .ok (lookupA m.states table)

/-- MemoryStateManager.CreateState: stores unconditionally, silently
overwriting any existing record. -/
def CreateState (m : Mgr) (st : St) : Except String Mgr :=
  .ok { m with states := setA m.states st.table st }

/-- MemoryStateManager.UpdateState: a silent no-op when the table has no
state; no lock check is performed. -/
def UpdateState (m : Mgr) (table : String) (processedRows : Int) (now : Nat) :
    Except String Mgr :=
  match lookupA m.states table with
  | some st =>
    let st2 := { st with processedRows := processedRows, lastUpdated := now }
    .ok { m with states := setA m.states table st2 }
  | none => .ok m

/-- MemoryStateManager.DeleteState: removes only the state entry, never
errors, and leaves any lock entry in place. -/
def DeleteState (m : Mgr) (table : String) : Except String Mgr :=
  .ok { m with states := delA m.states table }

/-- MemoryStateManager.LockState: denial when a live lock exists,
otherwise record expiry now plus duration and grant; no existence check
on the states map. -/
def LockState (m : Mgr) (table : String) (now dur : Nat) :
    Except String (Bool × Mgr) :=
  if liveLock m.locks table now then
    .ok (false, m)
  else
    .ok (true, { m with locks := setA m.locks table (now + dur) })

/-- MemoryStateManager.UnlockState: removes the lock entry if present
and succeeds either way. -/
def UnlockState (m : Mgr) (table : String) : Except String Mgr :=
  .ok { m with locks := delA m.locks table }

end MemoryStateManager

/-- One call against a state manager; the wall-clock readings taken by
the Go code during the call are explicit arguments. -/
inductive SOp where
  | get (k : String)
  | create (st : St)
  | update (k : String) (rows : Int) (now : Nat)
  | delete (k : String)
  | lock (k : String) (now dur : Nat)
  | unlock (k : String)
deriving DecidableEq

/-- Observable outcome of one state-manager call. -/
inductive Res where
  | stRes (x : Option St)
  | boolRes (b : Bool)
  | unitRes
  | errRes (msg : String)
deriving DecidableEq

/-- One step of MemoryManager, pairing the observable result with the
successor store. -/
def stepMM (m : Mgr) : SOp → Res × Mgr
  | .get k =>
    match MemoryManager.GetState m k with
    | .ok st => (.stRes (some st), m)
    | .error e => (.errRes e, m)
  | .create st =>
    match MemoryManager.CreateState m st with
    | .ok m2 => (.unitRes, m2)
    | .error e => (.errRes e, m)
  | .update k rows now =>
    match MemoryManager.UpdateState m k rows now with
    | .ok m2 => (.unitRes, m2)
    | .error e => (.errRes e, m)
  | .delete k =>
    match MemoryManager.DeleteState m k with
    | .ok m2 => (.unitRes, m2)
    | .error e => (.errRes e, m)
  | .lock k now dur =>
    match MemoryManager.LockState m k now dur with
    | .ok (b, m2) => (.boolRes b, m2)
    | .error e => (.errRes e, m)
  | .unlock k =>
    match MemoryManager.UnlockState m k with
    | .ok m2 => (.unitRes, m2)
    | .error e => (.errRes e, m)

/-- One step of MemoryStateManager. -/
def stepMSM (m : Mgr) : SOp → Res × Mgr
  | .get k =>
    match MemoryStateManager.GetState m k with
    | .ok x => (.stRes x, m)
    | .error e => (.errRes e, m)
  | .create st =>
    match MemoryStateManager.CreateState m st with
    | .ok m2 => (.unitRes, m2)
    | .error e => (.errRes e, m)
  | .update k rows now =>
    match MemoryStateManager.UpdateState m k rows now with
    | .ok m2 => (.unitRes, m2)
    | .error e => (.errRes e, m)
  | .delete k =>
    match MemoryStateManager.DeleteState m k with
    | .ok m2 => (.unitRes, m2)
    | .error e => (.errRes e, m)
  | .lock k now dur =>
    match MemoryStateManager.LockState m k now dur with
    | .ok (b, m2) => (.boolRes b, m2)
    | .error e => (.errRes e, m)
  | .unlock k =>
    match MemoryStateManager.UnlockState m k with
    | .ok m2 => (.unitRes, m2)
    | .error e => (.errRes e, m)

/-- Run a call sequence against MemoryManager, collecting results. -/
def runMM (m : Mgr) : List SOp → List Res × Mgr
  | [] => ([], m)
  | op :: ops =>
    let (r, m2) := stepMM m op
    let (rs, m3) := runMM m2 ops
    (r :: rs, m3)

/-- Run a call sequence against MemoryStateManager. -/
def runMSM (m : Mgr) : List SOp → List Res × Mgr
  | [] => ([], m)
  | op :: ops =>
    let (r, m2) := stepMSM m op
    let (rs, m3) := runMSM m2 ops
    (r :: rs, m3)

/-- Side conditions under which a single call avoids every edge case on
which the two in-memory managers diverge: reads, updates, deletes and
lock attempts target an existing checkpoint, creation targets a fresh
key, updates are not issued against a live lock, deletion targets a key
with no lock entry, and unlock targets a held lock. -/
def goodStep (m : Mgr) : SOp → Bool
  | .get k => (lookupA m.states k).isSome
  | .create st => (lookupA m.states st.table).isNone
  | .update k _ now => (lookupA m.states k).isSome && !liveLock m.locks k now
  | .delete k => (lookupA m.states k).isSome && (lookupA m.locks k).isNone
  | .lock k _ _ => (lookupA m.states k).isSome
  | .unlock k => (lookupA m.locks k).isSome

/-- A call sequence all of whose steps stay inside the common domain of
the two managers, checked against the evolving MemoryManager store. -/
def goodSeq (m : Mgr) : List SOp → Bool
  | [] => true
  | op :: ops => goodStep m op && goodSeq (stepMM m op).2 ops

/-- True on an error outcome of a fallible call. -/
def isErrE {α : Type} : Except String α → Bool
  | .ok _ => false
  | .error _ => true

/-- Projection of a successful outcome. -/
def okE {α : Type} : Except String α → Option α
  | .ok a => some a
  | .error _ => none

/-- Serialized file contents in the file-backend model: a lock file
holds one JSON timestamp, a state file one JSON State record.  Storing
the parsed form is faithful because the Go code round-trips both through
encoding/json. -/
inductive FData where
  | lockTime (t : Nat)
  | stateData (st : St)
deriving DecidableEq

/-- Filesystem fragment seen by FileStateManager: path to contents. -/
structure FileSys where
  files : List (String × FData)
deriving DecidableEq

/-- Filesystem operations issued by the file backend, recorded so that
write protocols (direct write versus write-then-rename) are visible. -/
inductive FsOp where
  | writeOp (path : String) (data : FData)
  | renameOp (src dst : String)
deriving DecidableEq

namespace FileStateManager

/-- Lock-file path built by LockState and UnlockState: baseDir joined
with the job id and the .lock suffix. -/
def lockPath (baseDir jobID : String) : String :=
  baseDir ++ "/" ++ jobID ++ ".lock"

/-- State-file path built by saveState and GetState: baseDir joined with
the table name and the .state suffix. -/
def statePath (baseDir table : String) : String :=
  baseDir ++ "/" ++ table ++ ".state"

/-- Overwrite of one path, the effect of os.WriteFile. -/
def writeFile (fs : FileSys) (p : String) (d : FData) : FileSys :=
  { files := setA fs.files p d }

/-- True when the lock file for the job exists, parses as a timestamp
and has not yet expired at the given instant. -/
def lockLive (fs : FileSys) (baseDir jobID : String) (now : Nat) : Bool :=
  match lookupA fs.files (lockPath baseDir jobID) with
  | some (FData.lockTime t) => decide (now < t)
  | _ => false

/-- FileStateManager.LockState of internal/state/file.go lines 133 to
167: stat the lock file; if present, read and unmarshal it and deny when
the stored expiry is still in the future; otherwise write a fresh expiry
of now plus duration and grant. -/
def LockState (fs : FileSys) (baseDir jobID : String) (now dur : Nat) :
    Except String (Bool × FileSys) :=
  match lookupA fs.files (lockPath baseDir jobID) with
  | some (FData.lockTime t) =>
    if decide (now < t) then .ok (false, fs)
    else .ok (true, writeFile fs (lockPath baseDir jobID) (FData.lockTime (now + dur)))
  | some _ => .error "failed to unmarshal lock time"
  | none => .ok (true, writeFile fs (lockPath baseDir jobID) (FData.lockTime (now + dur)))

/-- FileStateManager.UnlockState: error when the lock file is absent,
otherwise remove it. -/
def UnlockState (fs : FileSys) (baseDir jobID : String) : Except String FileSys :=
  match lookupA fs.files (lockPath baseDir jobID) with
  | some _ => .ok { files := delA fs.files (lockPath baseDir jobID) }
  | none => .error ("no lock found for job ID: " ++ jobID)

/-- Filesystem operations performed by FileStateManager.saveState of
internal/state/file.go lines 188 to 200: a single os.WriteFile of the
marshalled record straight to the final state path keyed by the table
name. -/
def saveStateOps (baseDir : String) (st : St) : List FsOp :=
  [FsOp.writeOp (statePath baseDir st.table) (FData.stateData st)]

/-- Effect of saveState on the filesystem. -/
def saveState (fs : FileSys) (baseDir : String) (st : St) : FileSys :=
  writeFile fs (statePath baseDir st.table) (FData.stateData st)

end FileStateManager

/-- True on a rename operation. -/
def FsOp.isRenameOp : FsOp → Bool
  | .renameOp _ _ => true
  | .writeOp _ _ => false

/-- Target path of a filesystem operation. -/
def FsOp.target : FsOp → String
  | .renameOp _ dst => dst
  | .writeOp p _ => p

/-- Tagged scalar cell value, the shallow form of the runtime-typed
interface values the Go drivers return to rows.Scan. -/
inductive Val where
  | null
  | int (n : Int)
  | str (s : String)
deriving DecidableEq

/-- Rendering of a non-nil scalar by fmt.Sprintf with the v verb:
integers print in decimal, strings print verbatim.  A nil interface
would print as the angle-bracketed nil marker, but every caller in the
source branches on nil first. -/
def goSprintfV : Val → List Char
  | .null => ("<nil>").data
  | .int n => (toString n).data
  | .str s => s.data

namespace GoCsv

/-- The rune class treated as leading space by the quoting rule of
encoding/csv, restricted to the code points our cells use; it agrees
with unicode.IsSpace on ASCII. -/
def isSpaceChar (c : Char) : Bool :=
  c == ' ' || c == '\t' || c == '\n' || c == '\x0b' || c == '\x0c' || c == '\r'

/-- The fieldNeedsQuotes test of encoding/csv with the comma delimiter:
empty fields are bare; the two-character backslash-dot field, any field
containing the delimiter, a quote or a line break, and any field with a
leading space character are quoted. -/
def fieldNeedsQuotes (s : List Char) : Bool :=
  if s.isEmpty then false
  else if s == ['\\', '.'] then true
  else if s.contains ',' || s.contains '"' || s.contains '\r' || s.contains '\n' then true
  else match s with
    | c :: _ => isSpaceChar c
    | [] => false

/-- Body written inside a quoted field: every quote is doubled, other
characters pass through (the writer is in bare line-feed mode). -/
def escapeQuoted : List Char → List Char
  | [] => []
  | c :: cs => if c == '"' then '"' :: '"' :: escapeQuoted cs else c :: escapeQuoted cs

/-- One field as emitted by the csv writer. -/
def writeField (s : List Char) : List Char :=
  if fieldNeedsQuotes s then '"' :: (escapeQuoted s ++ ['"']) else s

/-- One record as emitted by csv.Writer.Write followed by Flush: fields
joined by commas and terminated by a line feed. -/
def writeRecord (fields : List (List Char)) : List Char :=
  (List.intercalate [','] (fields.map writeField)) ++ ['\n']

end GoCsv

/-- Insertion into a list sorted by the given comparison. -/
def insertSorted {α : Type} (le : α → α → Bool) (x : α) : List α → List α
  | [] => [x]
  | y :: ys => if le x y then x :: y :: ys else y :: insertSorted le x ys

/-- Insertion sort; it stands for the ORDER BY clause of the generated
queries, whose result order is determined whenever the sort key is
unique. -/
def isort {α : Type} (le : α → α → Bool) : List α → List α
  | [] => []
  | x :: xs => insertSorted le x (isort le xs)

/-- Lexicographic strictly-greater on integer key tuples, the ordering
named by the specification for keyset pagination. -/
def lexGt : List Int → List Int → Bool
  | _, [] => false
  | [], _ :: _ => false
  | a :: as, b :: bs => decide (b < a) || (a == b && lexGt as bs)

/-- Lexicographic less-or-equal on integer key tuples, the ascending
order produced by ORDER BY over the key columns. -/
def lexLe : List Int → List Int → Bool
  | [], _ => true
  | _ :: _, [] => false
  | a :: as, b :: bs => decide (a < b) || (a == b && lexLe as bs)

namespace MSSQL

/-- Meaning of the term the where-clause loop of MSSQL.ExtractData emits
for key column i: the first i key columns equal the corresponding stored
last values and column i exceeds its stored value.  Out-of-range reads
default to zero; the callers constrain lengths so they never occur. -/
def orTuplesTerm (key vs : List Int) (i : Nat) : Bool :=
  ((List.range i).all fun j => key.getD j 0 == vs.getD j 0) &&
    decide (vs.getD i 0 < key.getD i 0)

/-- Meaning of the whole generated where clause: the disjunction of the
per-column terms, one per primary-key column, exactly as the loop in
internal/database/mssql.go lines 166 to 184 concatenates them. -/
def orTuplesPred (key vs : List Int) (numPk : Nat) : Bool :=
  (List.range numPk).any fun i => orTuplesTerm key vs i

/-- Result set of the query MSSQL.ExtractData builds and runs, under SQL
semantics: rows are modelled by their primary-key tuples; with stored
last values the generated where clause filters, then ORDER BY sorts
ascending and FETCH NEXT limits to the batch size.  With no stored last
values no where clause is emitted. -/
def extractPage (tbl : List (List Int)) (numPk : Nat)
    (lastValues : Option (List Int)) (batchSize : Nat) : List (List Int) :=
  let base := match lastValues with
    | none => tbl
    | some vs => tbl.filter fun r => orTuplesPred r vs numPk
  (isort lexLe base).take batchSize

/-- The JobID string MSSQL.ExtractData derives at line 121: database
name, table and the current reading of UnixNano joined by dashes. -/
def jobIDFor (database table : String) (nowNano : Int) : String :=
  database ++ "-" ++ table ++ "-" ++ toString nowNano

end MSSQL

namespace DuckDB

/-- The JobID string DuckDB.ExtractData derives at line 73, identical in
shape to the MSSQL one. -/
def jobIDFor (database table : String) (nowNano : Int) : String :=
  database ++ "-" ++ table ++ "-" ++ toString nowNano

end DuckDB

/-- The page of rows the specification prescribes for a page request:
all rows strictly greater than the last key under lexicographic order
(every row when the last key is null), ascending, at most limit rows. -/
def specKeysetPage (tbl : List (List Int)) (lastKey : Option (List Int))
    (limit : Nat) : List (List Int) :=
  let base := match lastKey with
    | none => tbl
    | some vs => tbl.filter fun r => lexGt r vs
  (isort lexLe base).take limit

/-- Comparison on cell values used when a generated ORDER BY sorts whole
rows: nulls first, then integers by value, then strings by their
characters.  On the homogeneous integer keys of the concrete tables in
this file it coincides with SQL integer ordering. -/
def valLe (a b : Val) : Bool :=
  match a, b with
  | .null, _ => true
  | .int _, .null => false
  | .int m, .int n => decide (m ≤ n)
  | .int _, .str _ => true
  | .str _, .null => false
  | .str _, .int _ => false
  | .str s, .str t => charsLe s.data t.data
where
  /-- Lexicographic less-or-equal on character lists. -/
  charsLe : List Char → List Char → Bool
    | [], _ => true
    | _ :: _, [] => false
    | a :: as, b :: bs => decide (a < b) || (a == b && charsLe as bs)

/-- Lexicographic less-or-equal on rows of cell values. -/
def valsLe : List Val → List Val → Bool
  | [], _ => true
  | _ :: _, [] => false
  | a :: as, b :: bs =>
    if a == b then valsLe as bs else valLe a b

/-- Projection of a row onto the columns at the given indices, the
composite sort key of an ORDER BY over those columns. -/
def projV (r : List Val) (idx : List Nat) : List Val :=
  idx.map fun i => r.getD i Val.null

namespace PostgresDB

/-- Row order produced by the SELECT of PostgresDB.ExtractBatch and
PostgresDB.ExtractData: ORDER BY the discovered key columns when any
exist, otherwise no ORDER BY clause at all, leaving the source order. -/
def orderRows (tbl : List (List Val)) (pkIdx : List Nat) : List (List Val) :=
  if pkIdx.isEmpty then tbl
  else isort (fun a b => valsLe (projV a pkIdx) (projV b pkIdx)) tbl

/-- PostgresDB.ExtractBatch of internal/database/postgres.go lines 243
to 295 under SQL semantics: the ordered rows restricted by LIMIT and
OFFSET.  The call carries no last-key argument and emits no keyset
predicate. -/
def ExtractBatch (tbl : List (List Val)) (pkIdx : List Nat)
    (offset limit : Nat) : List (List Val) :=
  ((orderRows tbl pkIdx).drop offset).take limit

/-- One CSV cell as rendered by the write loop of PostgresDB.ExtractData
lines 166 to 180: nil becomes the literal NULL, anything else the
Sprintf rendering, with no quoting or escaping of any kind. -/
def renderCell : Val → List Char
  | .null => ("NULL").data
  | v => goSprintfV v

/-- One CSV line as written by PostgresDB.ExtractData: cells joined by
commas and terminated by a line feed via Fprintf. -/
def csvLine (row : List Val) : List Char :=
  (List.intercalate [','] (row.map renderCell)) ++ ['\n']

/-- The fresh State record PostgresDB.ExtractData builds when GetState
fails: only Table, LastUpdated and Status are populated; the remaining
fields keep their Go zero values. -/
def freshState (table : String) (now : Nat) : St :=
  { jobID := "", table := table, lastOffset := 0, lastValues := none,
    lastUpdated := now, totalRows := 0, processedRows := 0,
    status := "running", errorMsg := "" }

/-- The row-writing loop of PostgresDB.ExtractData: render each row when
the format is csv, count it, and call UpdateState on the MemoryManager
every batchSize rows.  Returns the manager, the accumulated file text
and the row count. -/
def writeLoop (mgr : Mgr) (table : String) (content : List Char)
    (rows : List (List Val)) (processed : Int) (batchSize : Int)
    (format : String) (now : Nat) :
    Except String (Mgr × List Char × Int) :=
  match rows with
  | [] => .ok (mgr, content, processed)
  | r :: rs =>
    let content2 := if format == "csv" then content ++ csvLine r else content
    let processed2 := processed + 1
    if processed2 % batchSize == 0 then
      match MemoryManager.UpdateState mgr table processed2 now with
      | .error e => .error ("failed to update state: " ++ e)
      | .ok mgr2 => writeLoop mgr2 table content2 rs processed2 batchSize format now
    else
      writeLoop mgr table content2 rs processed2 batchSize format now

/-- PostgresDB.ExtractData of internal/database/postgres.go lines 95 to
201 against the MemoryManager state backend.  Steps in source order: get
or create the state record; order the full table by the discovered key
columns; create (truncate) the output file; write the header when the
format is csv; run the row loop; issue the final UpdateState.  No lease
is acquired anywhere, and the error paths that would leave a partly
written file are collapsed into the error result.  The single now
parameter stands for the wall-clock readings of the call. -/
def ExtractData (mgr : Mgr) (outFiles : List (String × List Char))
    (tbl : List (List Val)) (cols : List String) (pkIdx : List Nat)
    (table outputFile format : String) (batchSize : Int) (now : Nat) :
    Except String (Mgr × List (String × List Char)) :=
  let step1 : Except String Mgr :=
    match MemoryManager.GetState mgr table with
    | .ok _ => .ok mgr
    | .error _ =>
      match MemoryManager.CreateState mgr (freshState table now) with
      | .ok m2 => .ok m2
      | .error e => .error ("failed to create state: " ++ e)
  match step1 with
  | .error e => .error e
  | .ok mgr1 =>
    let ordered := orderRows tbl pkIdx
    let header : List Char :=
      if format == "csv" then
        (List.intercalate [','] (cols.map String.data)) ++ ['\n']
      else []
    match writeLoop mgr1 table header ordered 0 batchSize format now with
    | .error e => .error e
    | .ok (mgr2, content, processed) =>
      match MemoryManager.UpdateState mgr2 table processed now with
      | .error e => .error ("failed to update final state: " ++ e)
      | .ok mgr3 => .ok (mgr3, setA outFiles outputFile content)

end PostgresDB

namespace Extractor

/-- File open modes of the sink. -/
inductive FileMode where
  | create
  | append
deriving DecidableEq

/-- How Extractor.Extract opens the output file at line 115 of
pkg/extractor/extractor.go: os.Create unconditionally, truncating any
existing content; the checkpoint state does not influence the mode. -/
def openModeFor (_checkpointIsNew : Bool) : FileMode :=
  FileMode.create

/-- One cell as rendered by the extractToCSV loop: a nil cell becomes
the empty string, any other the Sprintf rendering. -/
def renderCellCsv : Val → List Char
  | .null => []
  | v => goSprintfV v

/-- One record of the output as written through the encoding/csv
writer. -/
def csvRecord (row : List Val) : List Char :=
  GoCsv.writeRecord (row.map renderCellCsv)

/-- The batch loop of Extractor.extractToCSV lines 217 to 250: starting
at the checkpoint offset, fetch batches of batchSize ordered rows by
LIMIT and OFFSET and write each row through the csv writer, until the
offset reaches the row count.  The fuel parameter bounds the iteration
count and is chosen by callers to exceed it; the Go loop performs at
most totalRows iterations whenever batchSize is positive. -/
def csvLoop (fuel : Nat) (ordered : List (List Val)) (offset batchSize total : Nat) :
    List Char :=
  match fuel with
  | 0 => []
  | fuel2 + 1 =>
    if offset < total then
      (((ordered.drop offset).take batchSize).map csvRecord).flatten ++
        csvLoop fuel2 ordered (offset + batchSize) batchSize total
    else []

/-- Content of the output file after Extractor.Extract runs in csv
format over a table whose batch reads return the given ordered rows:
os.Create empties the file, extractToCSV writes the header record, and
the batch loop starts at the checkpoint offset lastID.  The total row
count comes from GetTotalRows, which counts the full table. -/
def extractCsvFile (ordered : List (List Val)) (cols : List String)
    (lastID batchSize : Nat) : List Char :=
  GoCsv.writeRecord (cols.map String.data) ++
    csvLoop (ordered.length + 1) ordered lastID batchSize ordered.length

end Extractor

/-- Suffix test on paths, evaluated over their character lists. -/
def strHasSuffix (p suf : String) : Bool :=
  List.isSuffixOf suf.data p.data

/-! Helper lemmas shared by the claim theorems. -/

/-- Removing an absent key from an association list changes nothing. -/
theorem delA_eq_of_lookup_none {α : Type} (l : List (String × α)) (k : String)
    (h : lookupA l k = none) : delA l k = l := by
  induction l with
  | nil => rfl
  | cons p ps ih =>
    by_cases hk : (p.1 == k) = true
    · exfalso
      have hx : lookupA (p :: ps) k = some p.2 := by
        unfold lookupA
        rw [List.find?_cons_of_pos ps hk]
        rfl
      rw [h] at hx
      exact Option.noConfusion hx
    · have hk2 : (p.1 == k) = false := by simpa using hk
      have h2 : lookupA ps k = none := by
        unfold lookupA at h ⊢
        rw [List.find?_cons_of_neg ps (by simp [hk2])] at h
        exact h
      have hne : (p.1 != k) = true := by simp [bne, hk2]
      simp only [delA, List.filter_cons, hne, if_true]
      simp only [delA] at ih
      rw [ih h2]

/-- A constant conjunct distributes out of a boolean any. -/
theorem any_const_and {α : Type} (c : Bool) (p : α → Bool) (l : List α) :
    (l.any fun x => c && p x) = (c && l.any p) := by
  cases c <;> simp

/-- Pointwise equal predicates give equal boolean any. -/
theorem any_congr_pt {α : Type} {p q : α → Bool} (l : List α)
    (h : ∀ x ∈ l, p x = q x) : l.any p = l.any q := by
  induction l with
  | nil => rfl
  | cons x xs ih =>
    simp only [List.any_cons, h x (by simp)]
    rw [ih fun y hy => h y (by simp [hy])]

/-- A boolean any over an initial range splits off index zero. -/
theorem any_range_succ (f : Nat → Bool) (n : Nat) :
    (List.range (n + 1)).any f = (f 0 || (List.range n).any fun i => f (i + 1)) := by
  rw [List.range_succ_eq_map]
  simp [List.any_cons, List.any_map, Function.comp_def]

/-- Shifting one generated where-clause term past the head key column
peels off one equality conjunct. -/
theorem orTuplesTerm_succ (a b : Int) (as bs : List Int) (i : Nat) :
    MSSQL.orTuplesTerm (a :: as) (b :: bs) (i + 1) =
      ((a == b) && MSSQL.orTuplesTerm as bs i) := by
  unfold MSSQL.orTuplesTerm
  rw [List.range_succ_eq_map, List.all_cons, List.all_map]
  simp only [Function.comp_def, List.getD_cons_succ, List.getD_cons_zero, Bool.and_assoc]

/-- The disjunction of the generated where-clause terms coincides with
lexicographic strictly-greater on key tuples of matching length. -/
theorem orTuples_eq_lexGt : ∀ (key vs : List Int), key.length = vs.length →
    MSSQL.orTuplesPred key vs vs.length = lexGt key vs := by
  intro key vs
  induction vs generalizing key with
  | nil =>
    intro h
    cases key with
    | nil => rfl
    | cons a as => simp at h
  | cons b bs ih =>
    intro h
    cases key with
    | nil => simp at h
    | cons a as =>
      have hlen : as.length = bs.length := by simpa using h
      unfold MSSQL.orTuplesPred
      rw [List.length_cons, any_range_succ]
      have h0 : MSSQL.orTuplesTerm (a :: as) (b :: bs) 0 = decide (b < a) := by
        simp [MSSQL.orTuplesTerm]
      have hstep : ((List.range bs.length).any fun i =>
          MSSQL.orTuplesTerm (a :: as) (b :: bs) (i + 1)) =
          ((a == b) && lexGt as bs) := by
        rw [any_congr_pt (List.range bs.length)
          (fun i _ => orTuplesTerm_succ a b as bs i)]
        rw [any_const_and]
        have ihr := ih as hlen
        unfold MSSQL.orTuplesPred at ihr
        rw [ihr]
      rw [h0, hstep]
      rfl

/-- Two managers step identically on any call inside the common
domain. -/
theorem stepAgree (m : Mgr) (op : SOp) (h : goodStep m op = true) :
    stepMM m op = stepMSM m op := by
  cases op with
  | get k =>
    cases hl : lookupA m.states k with
    | none => simp [goodStep, hl] at h
    | some st =>
      simp [stepMM, stepMSM, MemoryManager.GetState, MemoryStateManager.GetState, hl]
  | create st =>
    cases hl : lookupA m.states st.table with
    | none =>
      simp [stepMM, stepMSM, MemoryManager.CreateState, MemoryStateManager.CreateState, hl]
    | some st2 => simp [goodStep, hl] at h
  | update k rows now =>
    cases hl : lookupA m.states k with
    | none => simp [goodStep, hl] at h
    | some st =>
      have hlive : liveLock m.locks k now = false := by
        simp [goodStep, hl] at h
        exact h
      simp [stepMM, stepMSM, MemoryManager.UpdateState, MemoryStateManager.UpdateState,
        hl, hlive]
  | delete k =>
    cases hl : lookupA m.states k with
    | none => simp [goodStep, hl] at h
    | some st =>
      have hlk : lookupA m.locks k = none := by
        simp [goodStep, hl] at h
        exact h
      simp [stepMM, stepMSM, MemoryManager.DeleteState, MemoryStateManager.DeleteState,
        hl, delA_eq_of_lookup_none m.locks k hlk]
  | lock k now dur =>
    cases hl : lookupA m.states k with
    | none => simp [goodStep, hl] at h
    | some st =>
      simp [stepMM, stepMSM, MemoryManager.LockState, MemoryStateManager.LockState, hl]
  | unlock k =>
    cases hl : lookupA m.locks k with
    | none => simp [goodStep, hl] at h
    | some t =>
      simp [stepMM, stepMSM, MemoryManager.UnlockState, MemoryStateManager.UnlockState, hl]

/-- Two managers produce identical result traces and identical final
stores on any call sequence inside the common domain. -/
theorem runAgree (ops : List SOp) (m : Mgr) (h : goodSeq m ops = true) :
    runMM m ops = runMSM m ops := by
  induction ops generalizing m with
  | nil => rfl
  | cons op ops ih =>
    have hsplit : goodStep m op = true ∧ goodSeq (stepMM m op).2 ops = true := by
      simpa [goodSeq, Bool.and_eq_true] using h
    have hs : stepMM m op = stepMSM m op := stepAgree m op hsplit.1
    simp only [runMM, runMSM, ← hs, ih (stepMM m op).2 hsplit.2]

/-- C10: in the MemoryManager of internal/state/state.go, LockState on a
key with no checkpoint returns an error rather than a grant or a denial,
and UnlockState on a key with no lock entry returns an error rather than
succeeding as a no-op. -/
theorem C10_memory_lock_unlock_error (m : Mgr) (k : String) (now d : Nat) :
    (lookupA m.states k = none → isErrE (MemoryManager.LockState m k now d) = true) ∧
    (lookupA m.locks k = none → isErrE (MemoryManager.UnlockState m k) = true) := by
  constructor
  · intro h
    simp [MemoryManager.LockState, h, isErrE]
  · intro h
    simp [MemoryManager.UnlockState, h, isErrE]

/-- Witness for C10 at the empty manager. -/
theorem C10_witness :
    isErrE (MemoryManager.LockState ⟨[], []⟩ "job1" 0 5) = true ∧
    isErrE (MemoryManager.UnlockState ⟨[], []⟩ "job1") = true :=
  ⟨(C10_memory_lock_unlock_error ⟨[], []⟩ "job1" 0 5).1 rfl,
   (C10_memory_lock_unlock_error ⟨[], []⟩ "job1" 0 5).2 rfl⟩

/-- C3 counterexample: on the memory backend a key that has no
checkpoint carries no live lease at all, yet LockState returns an error
instead of the grant the claim requires. -/
theorem C3_counterexample :
    isErrE (MemoryManager.LockState ⟨[], []⟩ "jobA" 3 10) = true ∧
    liveLock ([] : List (String × Nat)) "jobA" 3 = false := by
  constructor
  · rfl
  · rfl

/-- C3 amended: lease acquisition grants exactly when no unexpired lease
exists and then records expiry now plus duration, on the memory backend
only for keys holding a checkpoint (otherwise LockState errors), and on
the file backend whenever the lock file is absent or holds a parsed
timestamp. -/
theorem C3_lease_acquisition (m : Mgr) (k : String) (now d : Nat)
    (fs : FileSys) (baseDir jobID : String) (t : Nat)
    (hm : (lookupA m.states k).isSome = true)
    (hf : lookupA fs.files (FileStateManager.lockPath baseDir jobID) = none ∨
      lookupA fs.files (FileStateManager.lockPath baseDir jobID) = some (FData.lockTime t)) :
    MemoryManager.LockState m k now d =
      (if liveLock m.locks k now then .ok (false, m)
       else .ok (true, { m with locks := setA m.locks k (now + d) })) ∧
    FileStateManager.LockState fs baseDir jobID now d =
      (if FileStateManager.lockLive fs baseDir jobID now then .ok (false, fs)
       else .ok (true, FileStateManager.writeFile fs
         (FileStateManager.lockPath baseDir jobID) (FData.lockTime (now + d)))) := by
  constructor
  · have hn : (lookupA m.states k).isNone = false := by
      cases hx : lookupA m.states k with
      | none => rw [hx] at hm; simp at hm
      | some st => rfl
    unfold MemoryManager.LockState
    rw [hn]
    simp
  · cases hf with
    | inl habs =>
      unfold FileStateManager.LockState FileStateManager.lockLive
      rw [habs]
      simp
    | inr hsome =>
      unfold FileStateManager.LockState FileStateManager.lockLive
      rw [hsome]

/-- Witness for C3 at a one-checkpoint memory store and an empty
filesystem. -/
theorem C3_witness :
    ((lookupA (⟨[("t1", PostgresDB.freshState "t1" 0)], []⟩ : Mgr).states "t1").isSome = true ∧
      (lookupA (⟨[]⟩ : FileSys).files (FileStateManager.lockPath "root" "j1") = none ∨
        lookupA (⟨[]⟩ : FileSys).files (FileStateManager.lockPath "root" "j1") =
          some (FData.lockTime 9))) ∧
    (MemoryManager.LockState ⟨[("t1", PostgresDB.freshState "t1" 0)], []⟩ "t1" 2 10 =
      (if liveLock ([] : List (String × Nat)) "t1" 2 then
        .ok (false, (⟨[("t1", PostgresDB.freshState "t1" 0)], []⟩ : Mgr))
       else .ok (true, { (⟨[("t1", PostgresDB.freshState "t1" 0)], []⟩ : Mgr) with
         locks := setA [] "t1" (2 + 10) })) ∧
     FileStateManager.LockState ⟨[]⟩ "root" "j1" 2 10 =
      (if FileStateManager.lockLive ⟨[]⟩ "root" "j1" 2 then .ok (false, (⟨[]⟩ : FileSys))
       else .ok (true, FileStateManager.writeFile ⟨[]⟩
         (FileStateManager.lockPath "root" "j1") (FData.lockTime (2 + 10))))) :=
  ⟨⟨by decide, Or.inl (by decide)⟩,
   C3_lease_acquisition ⟨[("t1", PostgresDB.freshState "t1" 0)], []⟩ "t1" 2 10 ⟨[]⟩
     "root" "j1" 9 (by decide) (Or.inl (by decide))⟩

/-- C9 counterexample: a single GetState on a missing key already
separates the two in-memory managers, the first erroring and the second
succeeding with a nil record. -/
theorem C9_counterexample :
    runMM ⟨[], []⟩ [SOp.get "t1"] ≠ runMSM ⟨[], []⟩ [SOp.get "t1"] := by
  decide

/-- C9 amended: MemoryManager and MemoryStateManager are observationally
equivalent on every call sequence that stays inside their common domain,
meaning reads, updates, deletions and lock attempts target keys holding
a checkpoint, creations target fresh keys, updates never run against a
live lock, deletions target keys with no lock entry, and unlocks target
held locks; outside that domain they diverge. -/
theorem C9_equiv_on_common_domain (ops : List SOp) (m : Mgr)
    (h : goodSeq m ops = true) : runMM m ops = runMSM m ops :=
  runAgree ops m h

/-- Witness for C9 on a six-call sequence exercising every operation. -/
theorem C9_witness :
    goodSeq ⟨[], []⟩ [SOp.create (PostgresDB.freshState "t1" 0), SOp.lock "t1" 0 10,
      SOp.get "t1", SOp.update "t1" 5 20, SOp.unlock "t1", SOp.delete "t1"] = true ∧
    runMM ⟨[], []⟩ [SOp.create (PostgresDB.freshState "t1" 0), SOp.lock "t1" 0 10,
      SOp.get "t1", SOp.update "t1" 5 20, SOp.unlock "t1", SOp.delete "t1"] =
    runMSM ⟨[], []⟩ [SOp.create (PostgresDB.freshState "t1" 0), SOp.lock "t1" 0 10,
      SOp.get "t1", SOp.update "t1" 5 20, SOp.unlock "t1", SOp.delete "t1"] :=
  ⟨by decide,
   C9_equiv_on_common_domain [SOp.create (PostgresDB.freshState "t1" 0),
     SOp.lock "t1" 0 10, SOp.get "t1", SOp.update "t1" 5 20, SOp.unlock "t1",
     SOp.delete "t1"] ⟨[], []⟩ (by decide)⟩

/-- C2 counterexample: on a table with no discovered key columns the
Postgres batch query carries no ORDER BY, so even the first page (null
last key) is returned in source order rather than in ascending key
order, while the specified page is sorted. -/
theorem C2_counterexample :
    PostgresDB.ExtractBatch [[Val.int 3], [Val.int 1]] [] 0 2 =
      [[Val.int 3], [Val.int 1]] ∧
    specKeysetPage [[3], [1]] none 2 = [[(1 : Int)], [3]] ∧
    ([[Val.int 3], [Val.int 1]] : List (List Val)) ≠ [[Val.int 1], [Val.int 3]] := by
  refine ⟨rfl, by decide, by decide⟩

/-- C2 amended: the MSSQL adapter does implement keyset pagination, and
its generated OR-of-tuples where clause selects exactly the rows whose
key tuple is lexicographically strictly greater than the stored last
values, sorted ascending and limited to the batch size, with the empty
predicate on a null last key; the Postgres batch reader instead pages by
LIMIT and OFFSET with no keyset predicate, ordering only by discovered
key columns when any exist. -/
theorem C2_keyset_page_shape (tbl : List (List Int)) (vs : List Int)
    (bs : Nat) (hlen : ∀ r ∈ tbl, r.length = vs.length) :
    MSSQL.extractPage tbl vs.length (some vs) bs = specKeysetPage tbl (some vs) bs ∧
    MSSQL.extractPage tbl vs.length none bs = specKeysetPage tbl none bs ∧
    ∀ (t2 : List (List Val)) (pk : List Nat) (offset limit : Nat),
      PostgresDB.ExtractBatch t2 pk offset limit =
        ((PostgresDB.orderRows t2 pk).drop offset).take limit := by
  refine ⟨?_, rfl, fun t2 pk offset limit => rfl⟩
  unfold MSSQL.extractPage specKeysetPage
  have hfil : (tbl.filter fun r => MSSQL.orTuplesPred r vs vs.length) =
      (tbl.filter fun r => lexGt r vs) := by
    apply List.filter_congr
    intro r hr
    exact orTuples_eq_lexGt r vs (hlen r hr)
  show (isort lexLe (tbl.filter fun r => MSSQL.orTuplesPred r vs vs.length)).take bs =
    (isort lexLe (tbl.filter fun r => lexGt r vs)).take bs
  rw [hfil]

/-- Witness for C2 on a two-column key: rows beyond last key (1, 3) are
exactly those with first column above 1 or first column 1 and second
above 3. -/
theorem C2_witness :
    (∀ r ∈ [[(2 : Int), 1], [1, 5], [1, 2], [1, 3]], r.length = [(1 : Int), 3].length) ∧
    MSSQL.extractPage [[(2 : Int), 1], [1, 5], [1, 2], [1, 3]] 2 (some [1, 3]) 10 =
      specKeysetPage [[(2 : Int), 1], [1, 5], [1, 2], [1, 3]] (some [1, 3]) 10 :=
  ⟨by decide,
   (C2_keyset_page_shape [[(2 : Int), 1], [1, 5], [1, 2], [1, 3]] [1, 3] 10 (by decide)).1⟩

/-- C1: the resumed extractor run reopens the sink with os.Create, which
truncates it, and restarts writing at the checkpoint offset, so the
final artifact lacks every row the previous run wrote: resuming a
four-row table at checkpoint offset 2 with batch size 2 leaves only the
header and rows three and four, and the rendering of row one appears
nowhere in it. -/
theorem C1_resumed_run_truncates_sink :
    Extractor.openModeFor false = Extractor.FileMode.create ∧
    Extractor.extractCsvFile [[Val.int 1, Val.str "a"], [Val.int 2, Val.str "b"],
      [Val.int 3, Val.str "c"], [Val.int 4, Val.str "d"]] ["id", "name"] 2 2 =
      ("id,name\n3,c\n4,d\n").data ∧
    Extractor.extractCsvFile [[Val.int 1, Val.str "a"], [Val.int 2, Val.str "b"],
      [Val.int 3, Val.str "c"], [Val.int 4, Val.str "d"]] ["id", "name"] 0 2 =
      ("id,name\n1,a\n2,b\n3,c\n4,d\n").data ∧
    ¬ List.IsInfix (("1,a\n").data) (("id,name\n3,c\n4,d\n").data) := by
  refine ⟨rfl, by decide, by decide, by decide⟩

/-- C6: the JobID the MSSQL and DuckDB extractors derive embeds the
UnixNano reading of the call, so two derivations from the same source
identity and table at different instants disagree, and the destination
path never enters the derivation. -/
theorem C6_jobid_not_deterministic :
    MSSQL.jobIDFor "mydb" "users" 1 ≠ MSSQL.jobIDFor "mydb" "users" 2 ∧
    DuckDB.jobIDFor "mydb" "users" 1 ≠ DuckDB.jobIDFor "mydb" "users" 2 := by
  refine ⟨by decide, by decide⟩

/-- C4: PostgresDB.ExtractData acquires no lease at all, so a second
extraction attempt on the same table is never denied: from a fresh
store the first attempt succeeds, and the immediately following second
attempt also succeeds and overwrites the sink (here pre-seeded with
sentinel content) instead of failing Busy and leaving it untouched. -/
theorem C4_second_attempt_not_blocked :
    okE (PostgresDB.ExtractData ⟨[], []⟩ [] [[Val.int 1, Val.str "a"]] ["id", "name"]
      [] "users" "out.csv" "csv" 1000 7) =
      some (⟨[("users", { (PostgresDB.freshState "users" 7) with processedRows := 1 })], []⟩,
        [("out.csv", ("id,name\n1,a\n").data)]) ∧
    okE (PostgresDB.ExtractData
      ⟨[("users", { (PostgresDB.freshState "users" 7) with processedRows := 1 })], []⟩
      [("out.csv", ("SENTINEL").data)] [[Val.int 1, Val.str "a"]] ["id", "name"]
      [] "users" "out.csv" "csv" 1000 8) =
      some (⟨[("users", { (PostgresDB.freshState "users" 7) with processedRows := 1, lastUpdated := 8 })], []⟩,
        [("out.csv", ("id,name\n1,a\n").data)]) ∧
    some (("id,name\n1,a\n").data) ≠ some (("SENTINEL").data) := by
  refine ⟨by decide, by decide, by decide⟩

/-- C5: a Postgres extraction of an empty table returns without error,
writes the header-only csv and records zero processed rows, but the
persisted checkpoint keeps status running: no code path ever assigns the
completed status the claim requires. -/
theorem C5_success_leaves_status_running :
    okE (PostgresDB.ExtractData ⟨[], []⟩ [] [] ["id", "name"] [] "users" "out.csv"
      "csv" 1000 7) =
      some (⟨[("users", PostgresDB.freshState "users" 7)], []⟩,
        [("out.csv", ("id,name\n").data)]) ∧
    (PostgresDB.freshState "users" 7).processedRows = 0 ∧
    (PostgresDB.freshState "users" 7).status = "running" ∧
    ("running" : String) ≠ "completed" := by
  refine ⟨by decide, rfl, rfl, by decide⟩

/-- C7 counterexample: the csv writing path of PostgresDB.ExtractData
renders a field containing the delimiter verbatim, so the one-field row
holding the text a-comma-b and the two-field row holding a and b emit
the very same line, an unescaped delimiter inside a field. -/
theorem C7_counterexample :
    PostgresDB.csvLine [Val.str "a,b"] = ("a,b\n").data ∧
    PostgresDB.csvLine [Val.str "a", Val.str "b"] = ("a,b\n").data ∧
    ([Val.str "a,b"] : List Val) ≠ [Val.str "a", Val.str "b"] := by
  refine ⟨by decide, by decide, by decide⟩

/-- C7 amended: only the extractor path quotes: a field containing the
delimiter, a quote or a line break is emitted by the encoding/csv writer
quoted with internal quotes doubled, and the extractor renders null
cells as empty; the Postgres csv path renders null as the literal NULL
but emits every other cell verbatim with no quoting. -/
theorem C7_quoting_on_extractor_path_only (s : List Char) (t : String)
    (hs : (s.contains ',' || s.contains '\n' || s.contains '"') = true) :
    GoCsv.writeField s = '"' :: (GoCsv.escapeQuoted s ++ ['"']) ∧
    Extractor.renderCellCsv Val.null = [] ∧
    PostgresDB.renderCell Val.null = ("NULL").data ∧
    PostgresDB.renderCell (Val.str t) = t.data := by
  refine ⟨?_, rfl, by decide, rfl⟩
  have hne : s.isEmpty = false := by
    cases s with
    | nil => simp at hs
    | cons c cs => rfl
  have hq : GoCsv.fieldNeedsQuotes s = true := by
    unfold GoCsv.fieldNeedsQuotes
    rw [hne]
    have hcon : (s.contains ',' || s.contains '"' || s.contains '\r' ||
        s.contains '\n') = true := by
      simp only [Bool.or_eq_true] at hs ⊢
      tauto
    simp only [hcon]
    simp
  unfold GoCsv.writeField
  rw [hq]
  simp

/-- Witness for C7 at the field a-comma-b. -/
theorem C7_witness :
    ((("a,b").data.contains ',' || ("a,b").data.contains '\n' ||
      ("a,b").data.contains '"') = true) ∧
    GoCsv.writeField (("a,b").data) =
      '"' :: (GoCsv.escapeQuoted (("a,b").data) ++ ['"']) ∧
    Extractor.renderCellCsv Val.null = [] ∧
    PostgresDB.renderCell Val.null = ("NULL").data ∧
    PostgresDB.renderCell (Val.str "x") = ("x").data :=
  ⟨by decide, (C7_quoting_on_extractor_path_only (("a,b").data) "x" (by decide))⟩

/-- C8 counterexample: saveState writes the marshalled checkpoint in a
single direct WriteFile to a path keyed by the table name, with no
temporary file and no rename: for a checkpoint of job id job1 over table
users under root the only operation writes root/users.state, which is
not the claimed root/job1.state, and no written path carries the tmp
suffix. -/
theorem C8_counterexample :
    FileStateManager.saveStateOps "root"
      { jobID := "job1", table := "users", lastOffset := 0, lastValues := none,
        lastUpdated := 0, totalRows := 0, processedRows := 0, status := "running",
        errorMsg := "" } =
      [FsOp.writeOp "root/users.state" (FData.stateData
        { jobID := "job1", table := "users", lastOffset := 0, lastValues := none,
          lastUpdated := 0, totalRows := 0, processedRows := 0, status := "running",
          errorMsg := "" })] ∧
    (FileStateManager.saveStateOps "root"
      { jobID := "job1", table := "users", lastOffset := 0, lastValues := none,
        lastUpdated := 0, totalRows := 0, processedRows := 0, status := "running",
        errorMsg := "" }).any FsOp.isRenameOp = false ∧
    ("root/users.state" : String) ≠ "root/job1.state" ∧
    (FileStateManager.saveStateOps "root"
      { jobID := "job1", table := "users", lastOffset := 0, lastValues := none,
        lastUpdated := 0, totalRows := 0, processedRows := 0, status := "running",
        errorMsg := "" }).all (fun op => !strHasSuffix (FsOp.target op) ".tmp") = true := by
  refine ⟨by decide, by decide, by decide, by decide⟩

/-- C8 amended: the file backend persists each checkpoint at the path
root slash table dot state through one direct WriteFile with no
temporary file or rename, and each lease at root slash job id dot lock
holding the serialized expiry; acquisition is a read-check-then-write
under a process mutex whose expiry is honored on read: an unexpired
stored timestamp denies, an expired one is overwritten with now plus
duration and granted. -/
theorem C8_file_layout_and_expiry (baseDir jobID : String) (st : St)
    (fs : FileSys) (now dur t : Nat)
    (hf : lookupA fs.files (FileStateManager.lockPath baseDir jobID) =
      some (FData.lockTime t)) :
    FileStateManager.saveStateOps baseDir st =
      [FsOp.writeOp (FileStateManager.statePath baseDir st.table)
        (FData.stateData st)] ∧
    FileStateManager.statePath baseDir st.table =
      baseDir ++ "/" ++ st.table ++ ".state" ∧
    FileStateManager.lockPath baseDir jobID = baseDir ++ "/" ++ jobID ++ ".lock" ∧
    (now < t → FileStateManager.LockState fs baseDir jobID now dur =
      .ok (false, fs)) ∧
    (¬ now < t → FileStateManager.LockState fs baseDir jobID now dur =
      .ok (true, FileStateManager.writeFile fs
        (FileStateManager.lockPath baseDir jobID) (FData.lockTime (now + dur)))) := by
  refine ⟨rfl, rfl, rfl, ?_, ?_⟩
  · intro hlt
    unfold FileStateManager.LockState
    rw [hf]
    simp [hlt]
  · intro hge
    unfold FileStateManager.LockState
    rw [hf]
    simp [hge]

/-- Witness for C8 with an expired lock file under root. -/
theorem C8_witness :
    (lookupA (⟨[("root/j1.lock", FData.lockTime 5)]⟩ : FileSys).files
      (FileStateManager.lockPath "root" "j1") = some (FData.lockTime 5)) ∧
    FileStateManager.saveStateOps "root" (PostgresDB.freshState "users" 0) =
      [FsOp.writeOp (FileStateManager.statePath "root" "users")
        (FData.stateData (PostgresDB.freshState "users" 0))] ∧
    (¬ 9 < 5 → FileStateManager.LockState ⟨[("root/j1.lock", FData.lockTime 5)]⟩
      "root" "j1" 9 10 =
      .ok (true, FileStateManager.writeFile ⟨[("root/j1.lock", FData.lockTime 5)]⟩
        (FileStateManager.lockPath "root" "j1") (FData.lockTime (9 + 10)))) :=
  ⟨by decide,
   (C8_file_layout_and_expiry "root" "j1" (PostgresDB.freshState "users" 0)
     ⟨[("root/j1.lock", FData.lockTime 5)]⟩ 9 10 5 (by decide)).1,
   fun h => ((C8_file_layout_and_expiry "root" "j1" (PostgresDB.freshState "users" 0)
     ⟨[("root/j1.lock", FData.lockTime 5)]⟩ 9 10 5 (by decide)).2.2.2.2) h⟩
